import Mathlib

/-!
Shallow embedding of `src/mdparser.py` of The-API-Scraper-System.

Python data is modelled as follows: a Python `Response` object (holding the
insertion-ordered `dict[str, ResponseField]` attribute `fields`) becomes an
association list in insertion order; `ResponseField.type` (one of the string
literals `"data" | "array" | "object"`) becomes the enumeration `FType`;
decoded JSON values (the output of `json.loads`) become `JsonValue`; raised
exceptions become `Except.error` carrying the static part of the exception
message (the Python code builds `ParseError(fmtstring, args...)` without ever
formatting, so only the static text is meaningful).

Recursive Python functions are embedded as fuel-indexed structural
recursions (so that concrete runs reduce definitionally); every wrapper
supplies a fuel bound strictly larger than the recursion depth of the
corresponding Python call, and stability lemmas below show the bound is
irrelevant wherever a general theorem needs that fact.
-/

/-- The `type` attribute of the Python `ResponseField` class: one of the
string literals `"data"`, `"array"`, `"object"` (mdparser.py line 45). -/
inductive FType where
  | data
  | array
  | object
deriving DecidableEq, Repr

/-- The Python `ResponseField` class (mdparser.py lines 43-77): a key, a type
tag and an optional nested response.  The nested `Response` is inlined as an
association list, mirroring `Response.fields : dict[str, ResponseField]`
(insertion order, unique keys in every dict the program builds). -/
inductive ResponseField where
  | mk (key : String) (type : FType) (nested : Option (List (String × ResponseField)))

/-- The Python `Response` class (mdparser.py lines 80-103) is a wrapper
around the ordered dict `fields`; we represent it by the association list
itself. -/
abbrev Response := List (String × ResponseField)

/-- Accessor for the `key` attribute of `ResponseField`. -/
def ResponseField.key : ResponseField → String
  | .mk k _ _ => k

/-- Accessor for the `type` attribute of `ResponseField`. -/
def ResponseField.type : ResponseField → FType
  | .mk _ t _ => t

/-- Accessor for the `nested` attribute of `ResponseField`. -/
def ResponseField.nested : ResponseField → Option Response
  | .mk _ _ n => n

mutual

/-- Decidable equality for `ResponseField` (the derive handler does not
support this nested inductive, so it is written out). -/
def decEqRF : (a b : ResponseField) → Decidable (a = b)
  | .mk k t n, .mk k' t' n' =>
    match decEq k k', decEq t t', decEqRN n n' with
    | isTrue h1, isTrue h2, isTrue h3 => isTrue (by rw [h1, h2, h3])
    | isFalse h1, _, _ => isFalse (by intro h; cases h; exact h1 rfl)
    | _, isFalse h2, _ => isFalse (by intro h; cases h; exact h2 rfl)
    | _, _, isFalse h3 => isFalse (by intro h; cases h; exact h3 rfl)

/-- Decidable equality for an optional nested response. -/
def decEqRN : (a b : Option (List (String × ResponseField))) → Decidable (a = b)
  | none, none => isTrue rfl
  | none, some _ => isFalse (by intro h; cases h)
  | some _, none => isFalse (by intro h; cases h)
  | some l, some l' =>
    match decEqRL l l' with
    | isTrue h => isTrue (by rw [h])
    | isFalse h => isFalse (by intro hh; cases hh; exact h rfl)

/-- Decidable equality for response field lists. -/
def decEqRL : (a b : List (String × ResponseField)) → Decidable (a = b)
  | [], [] => isTrue rfl
  | [], _ :: _ => isFalse (by intro h; cases h)
  | _ :: _, [] => isFalse (by intro h; cases h)
  | (k, f) :: rest, (k', f') :: rest' =>
    match decEq k k', decEqRF f f', decEqRL rest rest' with
    | isTrue h1, isTrue h2, isTrue h3 => isTrue (by rw [h1, h2, h3])
    | isFalse h1, _, _ => isFalse (by intro h; cases h; exact h1 rfl)
    | _, isFalse h2, _ => isFalse (by intro h; cases h; exact h2 rfl)
    | _, _, isFalse h3 => isFalse (by intro h; cases h; exact h3 rfl)

end

instance : DecidableEq ResponseField := decEqRF

instance : DecidableEq (Option (List (String × ResponseField))) := decEqRN

/-- Decidable equality for `Except` results, so that concrete runs can be
settled by `decide`. -/
instance {e a : Type} [DecidableEq e] [DecidableEq a] : DecidableEq (Except e a)
  | .ok x, .ok y =>
    match decEq x y with
    | isTrue h => isTrue (by rw [h])
    | isFalse h => isFalse (by intro hh; cases hh; exact h rfl)
  | .ok _, .error _ => isFalse (by intro h; cases h)
  | .error _, .ok _ => isFalse (by intro h; cases h)
  | .error x, .error y =>
    match decEq x y with
    | isTrue h => isTrue (by rw [h])
    | isFalse h => isFalse (by intro hh; cases hh; exact h rfl)

mutual

/-- Structural size of a `ResponseField` (strings do not count), used as the
fuel bound for the embedded recursions. -/
def rsizeF : ResponseField → Nat
  | .mk _ _ none => 1
  | .mk _ _ (some fs) => 2 + rsizeL fs

/-- Structural size of a `Response`. -/
def rsizeL : Response → Nat
  | [] => 1
  | (_, f) :: rest => 1 + rsizeF f + rsizeL rest

end

/-- Python `dict.get(k)` on the ordered mapping: the first entry with the
given key (keys are unique in every dict the program builds). -/
def lookupField (k : String) : Response → Option ResponseField
  | [] => none
  | (k', f) :: rest => if k' = k then some f else lookupField k rest

/-- The merging walk of `union_response` (mdparser.py lines 106-132).

The Python function copies every entry of `r1.fields` into `res`
(lines 109-110) and then iterates `r2.fields` (lines 112-130): a key absent
from `r1` is appended (line 115); for a shared key the entry kept in `res`
is `r1`'s field object `f`, the types must agree (line 118), a `"data"`
field is left alone, a field with a one-sided `nested` is left alone when
its type is `"array"` and raises otherwise (lines 126-129), and when both
sides carry a nested response line 130 overwrites `f.nested` with their
recursive union.  Since each dict has unique keys this is equivalently
computed by walking `r1.fields` and merging each entry against the
`r2.fields` lookup, then appending the `r2`-only entries; this function
computes the walk over `r1` and `union_response` appends the rest.  `fuel`
decreases at every call; wrappers pass `rsizeL r1 + 1`, which by the
stability lemmas below exceeds the recursion depth. -/
def union_merge : Nat → Response → Response → Except String Response
  | 0, _, _ => throw "out of fuel"
  | _ + 1, [], _ => pure []
  | fuel + 1, (k, ResponseField.mk key t1 n1) :: rest, fs2 => do
    let f ← match lookupField k fs2 with
      | none => pure (ResponseField.mk key t1 n1)
      | some (ResponseField.mk _ t2 n2) =>
        if t1 = t2 then
          match t1, n1, n2 with
          | FType.data, _, _ => pure (ResponseField.mk key t1 n1)
          | t, some na, some nb =>
            (union_merge fuel na nb).map (fun m =>
              ResponseField.mk key t
                (some (m ++ nb.filter (fun p => (lookupField p.1 na).isNone))))
          | t, n1', _ =>
            if t = FType.array then pure (ResponseField.mk key t n1')
            else throw "ResponseField has missing nested type"
        else throw "field has conflicting types"
    let tail ← union_merge fuel rest fs2
    pure ((k, f) :: tail)

/-- The merging walk at its canonical fuel. -/
def union_fields (r1 r2 : Response) : Except String Response :=
  union_merge (rsizeL r1 + 1) r1 r2

/-- The entries of `r2` whose keys do not occur in `r1`: these are the
entries appended to `res` at line 115, in `r2` order. -/
def fieldsOnly (r1 r2 : Response) : Response :=
  r2.filter (fun p => (lookupField p.1 r1).isNone)

/-- `union_response(r1, r2)` (mdparser.py lines 106-132): the merged walk of
`r1` followed by the `r2`-only entries. -/
def union_response (r1 r2 : Response) : Except String Response :=
  (union_fields r1 r2).map (fun m => m ++ fieldsOnly r1 r2)

/-- The value of the first argument `r1` after `union_response(r1, r2)`
returns.  At line 110 `res.fields[k]` is the very `ResponseField` object
stored in `r1.fields[k]`, and line 130 assigns `res.fields[k].nested`
through that shared reference; hence after a successful call `r1.fields`
holds exactly the merged fields computed by the walk over `r1` (the
appended `r2`-only entries live only in the new `res` dict, and `r2` is
not written through at all for tree-shaped arguments). -/
def union_mut_left (r1 r2 : Response) : Except String Response :=
  union_fields r1 r2

-- evaluation sanity checks: the fuel-structural embedding reduces by rfl.
example :
    union_response [("a", ResponseField.mk "a" FType.data none)]
      [("b", ResponseField.mk "b" FType.data none)]
      = Except.ok [("a", ResponseField.mk "a" FType.data none),
          ("b", ResponseField.mk "b" FType.data none)] := rfl

example :
    union_response
      [("k", ResponseField.mk "k" FType.object (some [("x", ResponseField.mk "x" FType.data none)]))]
      [("k", ResponseField.mk "k" FType.object (some [("y", ResponseField.mk "y" FType.data none)]))]
      = Except.ok [("k", ResponseField.mk "k" FType.object
          (some [("x", ResponseField.mk "x" FType.data none),
                 ("y", ResponseField.mk "y" FType.data none)]))] := by decide

/-- Well-formedness of a `Response` value as the Python program can actually
build one: every dict has unique keys, recursively.  (A Python `dict` cannot
hold a key twice, so every `Response` the program constructs satisfies
this.) -/
inductive WFResp : Response → Prop where
  | mk : ∀ fs : Response, (fs.map Prod.fst).Nodup →
      (∀ k key t n, (k, ResponseField.mk key t (some n)) ∈ fs → WFResp n) →
      WFResp fs

/-- A decoded JSON value, the output type of Python `json.loads`: `dict`,
`list`, `str`, `int`, `float`, `bool` or `None`.  A float carries its raw
literal text (the inference code only ever inspects the runtime type of a
value, never a float's magnitude). -/
inductive JsonValue where
  | null
  | jbool (b : Bool)
  | jint (n : Int)
  | jfloat (raw : List Char)
  | jstr (s : String)
  | jarr (elems : List JsonValue)
  | jobj (fields : List (String × JsonValue))

/-- Python `type(v).__name__` for a decoded JSON value. -/
def jtypeName : JsonValue → String
  | .null => "NoneType"
  | .jbool _ => "bool"
  | .jint _ => "int"
  | .jfloat _ => "float"
  | .jstr _ => "str"
  | .jarr _ => "list"
  | .jobj _ => "dict"

mutual

/-- Structural size of a `JsonValue`, the fuel bound for inference. -/
def jsizeV : JsonValue → Nat
  | .jarr l => 2 + jsizeL l
  | .jobj fs => 2 + jsizeFs fs
  | _ => 1

/-- Structural size of a JSON member list. -/
def jsizeFs : List (String × JsonValue) → Nat
  | [] => 1
  | (_, v) :: rest => 1 + jsizeV v + jsizeFs rest

/-- Structural size of a JSON element list. -/
def jsizeL : List JsonValue → Nat
  | [] => 1
  | v :: rest => 1 + jsizeV v + jsizeL rest

end

/-- The set `{type(e).__name__ for e in a}` of mdparser.py line 304, as the
list of first occurrences (only its cardinality and sole member are ever
used). -/
def typeNameSet (a : List JsonValue) : List String :=
  go a []
where
  go : List JsonValue → List String → List String
    | [], acc => acc
    | v :: rest, acc =>
      let t := jtypeName v
      if t ∈ acc then go rest acc else go rest (acc ++ [t])

mutual

/-- `res_from_json_obj(o)` (mdparser.py lines 284-298): walk the items of a
decoded JSON object in order; a dict value becomes an `object` field with a
recursively inferred nested response, a list value is classified by
`res_field_from_json_array`, anything else becomes a `data` field. -/
def res_obj_core : Nat → List (String × JsonValue) → Except String Response
  | 0, _ => throw "out of fuel"
  | _ + 1, [] => pure []
  | fuel + 1, (k, v) :: rest => do
    let f ← match v with
      | JsonValue.jobj fs =>
        (res_obj_core fuel fs).map (fun r => ResponseField.mk k FType.object (some r))
      | JsonValue.jarr l => res_arr_core fuel k l
      | _ => pure (ResponseField.mk k FType.data none)
    let tail ← res_obj_core fuel rest
    pure ((k, f) :: tail)

/-- `res_field_from_json_array(key, a)` (mdparser.py lines 301-322): compute
the set of element type names; unless it has exactly one member, raise
(note: an empty array therefore raises too).  A sole type of `str` or `int`
yields an `array` field with no nested response; a sole type other than
`dict` raises; otherwise every element is a dict and their inferred
responses are folded together with `union_response` starting from the empty
response. -/
def res_arr_core : Nat → String → List JsonValue → Except String ResponseField
  | 0, _, _ => throw "out of fuel"
  | fuel + 1, key, a =>
    match typeNameSet a with
    | [t] =>
      if t = "str" ∨ t = "int" then pure (ResponseField.mk key FType.array none)
      else if t ≠ "dict" then throw "unsupported array type"
      else (res_fold_core fuel [] a).map (fun nested =>
        ResponseField.mk key FType.array (some nested))
    | _ => throw "array has too many types"

/-- The fold `for o in a: nested = union_response(nested, res_from_json_obj(o))`
of mdparser.py lines 317-319.  The non-dict arm is unreachable: the caller
has already checked that every element's type name is `dict`. -/
def res_fold_core : Nat → Response → List JsonValue → Except String Response
  | 0, _, _ => throw "out of fuel"
  | _ + 1, acc, [] => pure acc
  | fuel + 1, acc, o :: rest =>
    match o with
    | JsonValue.jobj fs => do
      let r ← res_obj_core fuel fs
      let acc' ← union_response acc r
      res_fold_core fuel acc' rest
    | _ => throw "AttributeError"

end

/-- `res_from_json_obj` at its canonical fuel (the Python function;
`2 * jsizeFs o + 2` exceeds its recursion depth). -/
def res_from_json_obj (o : List (String × JsonValue)) : Except String Response :=
  res_obj_core (2 * jsizeFs o + 2) o

/-- `res_field_from_json_array` at its canonical fuel (the Python function). -/
def res_field_from_json_array (key : String) (a : List JsonValue) : Except String ResponseField :=
  res_arr_core (2 * jsizeL a + 2) key a

/-- `parse_json_response(s)` (mdparser.py lines 325-335) applied to the
already-decoded value: a decoded dict is handed to `res_from_json_obj`, any
other decoded shape raises; every `ParseError`/`ValueError` escaping the
body is re-raised as the single message `"could not parse json response"`. -/
def parse_json_response_decoded : JsonValue → Except String Response
  | JsonValue.jobj fs =>
    match res_from_json_obj fs with
    | .ok r => pure r
    | .error _ => throw "could not parse json response"
  | _ => throw "could not parse json response"

-- evaluation sanity checks for the inference pipeline
example :
    parse_json_response_decoded (JsonValue.jobj
      [("a", JsonValue.jint 1), ("b", JsonValue.jstr "x")])
      = Except.ok [("a", ResponseField.mk "a" FType.data none),
          ("b", ResponseField.mk "b" FType.data none)] := rfl

example :
    parse_json_response_decoded (JsonValue.jobj
      [("k", JsonValue.jarr [JsonValue.jobj [("a", JsonValue.jint 1)],
        JsonValue.jobj [("a", JsonValue.jint 1), ("b", JsonValue.jint 2)]])])
      = Except.ok [("k", ResponseField.mk "k" FType.array
          (some [("a", ResponseField.mk "a" FType.data none),
                 ("b", ResponseField.mk "b" FType.data none)]))] := rfl

example :
    res_field_from_json_array "k" [] = Except.error "array has too many types" := rfl

example :
    res_field_from_json_array "k" [JsonValue.jbool true]
      = Except.error "unsupported array type" := rfl

/-- Python whitespace as far as the inputs of this program exercise it
(`str.strip`, the `\s` class and the JSON decoder all treat space, tab,
newline and carriage return as blank; the rarer `\x0b`/`\x0c` never occur
in the documents handled here). -/
def isPySpace (c : Char) : Bool :=
  c = ' ' || c = '\t' || c = '\n' || c = '\r'

/-- Python `str.strip()` on a character list. -/
def stripChars (l : List Char) : List Char :=
  ((l.dropWhile isPySpace).reverse.dropWhile isPySpace).reverse

/-- Python `str.strip()`. -/
def pyStrip (s : String) : String :=
  String.mk (stripChars s.data)

/-- Whether `pat` is a prefix of `s` (plain character equality). -/
def prefEq : List Char → List Char → Bool
  | [], _ => true
  | _ :: _, [] => false
  | p :: ps, c :: cs => p = c && prefEq ps cs

/-- Python `str.partition(pat)` for a non-empty `pat`: `some (before, after)`
when `pat` occurs (split at its first occurrence, the separator dropped),
`none` when it does not. -/
def splitAtSub : List Char → List Char → Option (List Char × List Char)
  | [], pat => if pat.isEmpty then some ([], []) else none
  | c :: rest, pat =>
    if prefEq pat (c :: rest) then some ([], (c :: rest).drop pat.length)
    else
      match splitAtSub rest pat with
      | some (pre, post) => some (c :: pre, post)
      | none => none

/-- Python `pat in s` (substring containment). -/
def containsSub (s pat : List Char) : Bool :=
  (splitAtSub s pat).isSome

/-- Python `str.replace(pat, repl)` for a non-empty `pat`: every
non-overlapping occurrence replaced, scanning left to right.  `fuel` is at
least `s.length + 1` at every call site, which the scan (consuming at least
one character per step) never exhausts. -/
def replaceSub : Nat → List Char → List Char → List Char → List Char
  | 0, s, _, _ => s
  | fuel + 1, s, pat, repl =>
    match s with
    | [] => []
    | c :: rest =>
      if pat ≠ [] ∧ prefEq pat s then repl ++ replaceSub fuel (s.drop pat.length) pat repl
      else c :: replaceSub fuel rest pat repl

/-- Python `str.lower()` (the headers and markers lowercased by the parser
are ASCII). -/
def toLowerStr (s : String) : String :=
  String.mk (s.data.map Char.toLower)

/-- JSON string body scanner: the characters after an opening double quote,
up to the closing one, with the escapes the inputs of this program use
(`\"`, `\\`, `\/`, `\n`, `\t`, `\r`, `\b`, `\f`; the `\uXXXX` form never
occurs in the handled documents and makes the model decoder fail). -/
def jstrChars : List Char → Option (List Char × List Char)
  | [] => none
  | c :: rest =>
    if c = '"' then some ([], rest)
    else if c = '\\' then
      match rest with
      | e :: rest2 =>
        let esc : Option Char :=
          if e = '"' then some '"'
          else if e = '\\' then some '\\'
          else if e = '/' then some '/'
          else if e = 'n' then some '\n'
          else if e = 't' then some '\t'
          else if e = 'r' then some '\r'
          else if e = 'b' then some (Char.ofNat 8)
          else if e = 'f' then some (Char.ofNat 12)
          else none
        match esc with
        | some c2 =>
          match jstrChars rest2 with
          | some (cs, r) => some (c2 :: cs, r)
          | none => none
        | none => none
      | [] => none
    else
      match jstrChars rest with
      | some (cs, r) => some (c :: cs, r)
      | none => none

/-- Digit-list to integer. -/
def digitsToNat (ds : List Char) : Nat :=
  ds.foldl (fun acc c => acc * 10 + (c.toNat - 48)) 0

/-- A character that may continue a JSON number literal after the integer
digits (fraction or exponent part). -/
def isNumTail (c : Char) : Bool :=
  c.isDigit || c = '.' || c = 'e' || c = 'E' || c = '+' || c = '-'

/-- JSON number scanner: an optional minus sign and digits give an `int`
(what `json.loads` returns for them); a literal continuing with `.`/`e`/`E`
is a `float` and is kept as its raw text. -/
def jparseNum (s : List Char) : Option (JsonValue × List Char) :=
  let (negs, s1) :=
    match s with
    | c :: r => if c = '-' then ([c], r) else (([] : List Char), s)
    | [] => ([], s)
  let ds := s1.takeWhile Char.isDigit
  let s2 := s1.drop ds.length
  if ds.isEmpty then none
  else
    match s2 with
    | c :: _ =>
      if c = '.' ∨ c = 'e' ∨ c = 'E' then
        let tailcs := s2.takeWhile isNumTail
        some (JsonValue.jfloat (negs ++ ds ++ tailcs), s2.drop tailcs.length)
      else
        some (JsonValue.jint (if negs.isEmpty then (digitsToNat ds : Int) else -(digitsToNat ds : Int)), s2)
    | [] => some (JsonValue.jint (if negs.isEmpty then (digitsToNat ds : Int) else -(digitsToNat ds : Int)), s2)

/-- JSON whitespace skip (`json.loads` skips space, tab, newline and
carriage return between tokens). -/
def skipWs (s : List Char) : List Char :=
  s.dropWhile isPySpace

/-- Python dict assignment `d[k] = v` while building a decoded object: a
repeated key keeps its original position and takes the later value, a new
key is appended. -/
def assignKey : List (String × JsonValue) → String → JsonValue → List (String × JsonValue)
  | [], k, v => [(k, v)]
  | (k', v') :: rest, k, v =>
    if k' = k then (k, v) :: rest else (k', v') :: assignKey rest k v

mutual

/-- Recursive-descent model of the `json.loads` grammar over the forms the
documents of this program contain: objects, arrays, strings, integers,
floats, `true`, `false`, `null`.  Each recursive call consumes at least one
character first, so fuel `s.length + 1` is never exhausted. -/
def jparseVal : Nat → List Char → Except String (JsonValue × List Char)
  | 0, _ => throw "out of fuel"
  | fuel + 1, s =>
    match skipWs s with
    | [] => throw "expecting value"
    | c :: rest =>
      if c = '"' then
        match jstrChars rest with
        | some (cs, r) => pure (JsonValue.jstr (String.mk cs), r)
        | none => throw "unterminated string"
      else if c = Char.ofNat 123 then
        match skipWs rest with
        | c2 :: r2 =>
          if c2 = Char.ofNat 125 then pure (JsonValue.jobj [], r2)
          else jparseMembers fuel (c2 :: r2) []
        | [] => throw "expecting property name"
      else if c = '[' then
        match skipWs rest with
        | c2 :: r2 =>
          if c2 = ']' then pure (JsonValue.jarr [], r2)
          else jparseElems fuel (c2 :: r2) []
        | [] => throw "expecting value"
      else if prefEq "true".data (c :: rest) then pure (JsonValue.jbool true, (c :: rest).drop 4)
      else if prefEq "false".data (c :: rest) then pure (JsonValue.jbool false, (c :: rest).drop 5)
      else if prefEq "null".data (c :: rest) then pure (JsonValue.null, (c :: rest).drop 4)
      else
        match jparseNum (c :: rest) with
        | some (v, r) => pure (v, r)
        | none => throw "expecting value"

/-- Object members after `{` (first non-blank character already known not
to be the closing brace). -/
def jparseMembers : Nat → List Char → List (String × JsonValue) → Except String (JsonValue × List Char)
  | 0, _, _ => throw "out of fuel"
  | fuel + 1, s, acc =>
    match skipWs s with
    | c :: rest =>
      if c = '"' then
        match jstrChars rest with
        | some (kcs, r1) =>
          match skipWs r1 with
          | c2 :: r2 =>
            if c2 = ':' then do
              let (v, r3) ← jparseVal fuel r2
              let acc2 := assignKey acc (String.mk kcs) v
              match skipWs r3 with
              | c3 :: r4 =>
                if c3 = ',' then jparseMembers fuel r4 acc2
                else if c3 = Char.ofNat 125 then pure (JsonValue.jobj acc2, r4)
                else throw "expecting comma delimiter"
              | [] => throw "expecting comma delimiter"
            else throw "expecting colon delimiter"
          | [] => throw "expecting colon delimiter"
        | none => throw "unterminated string"
      else throw "expecting property name"
    | [] => throw "expecting property name"

/-- Array elements after `[` (first non-blank character already known not
to be the closing bracket). -/
def jparseElems : Nat → List Char → List JsonValue → Except String (JsonValue × List Char)
  | 0, _, _ => throw "out of fuel"
  | fuel + 1, s, acc => do
    let (v, r1) ← jparseVal fuel s
    let acc2 := acc ++ [v]
    match skipWs r1 with
    | c :: r2 =>
      if c = ',' then jparseElems fuel r2 acc2
      else if c = ']' then pure (JsonValue.jarr acc2, r2)
      else throw "expecting comma delimiter"
    | [] => throw "expecting comma delimiter"

end

/-- `json.loads(s)` restricted to the grammar above: the decoded value when
the whole text (up to trailing blanks) parses, `none` when it raises
`json.JSONDecodeError`. -/
def json_loads (s : String) : Option JsonValue :=
  match jparseVal (s.data.length + 1) s.data with
  | .ok (v, rest) => if (skipWs rest).isEmpty then some v else none
  | .error _ => none

-- decoder sanity checks
example : json_loads "\x7b\"a\": 1, \"b\": [true, null]\x7d"
    = some (JsonValue.jobj [("a", JsonValue.jint 1),
        ("b", JsonValue.jarr [JsonValue.jbool true, JsonValue.null])]) := rfl

example : json_loads "\x7b\"success\":false\x7d"
    = some (JsonValue.jobj [("success", JsonValue.jbool false)]) := rfl

example : json_loads "\x7b\"__invalid\":\"name\"\x7d"
    = some (JsonValue.jobj [("__invalid", JsonValue.jstr "name")]) := rfl

example : json_loads "\x7b\"\"__invalid\":\"name\"\x7d" = none := rfl

example : json_loads "[\x7b\"a\":1\x7d, \x7b\"a\":2\x7d]"
    = some (JsonValue.jarr [JsonValue.jobj [("a", JsonValue.jint 1)],
        JsonValue.jobj [("a", JsonValue.jint 2)]]) := rfl

/-- The Python `Parameter` class (mdparser.py lines 17-38), constructed with
every attribute the empty string and filled in by `parse_param_line`. -/
structure Parameter where
  name : String
  type : String
  doc : String
  presence : String
deriving DecidableEq, Repr

/-- `parse_request_name(s)` (mdparser.py lines 181-183): every `*` removed,
then whitespace stripped.  The title is stored whole; there is no split
into an action and a resource anywhere in the program. -/
def parse_request_name (s : String) : String :=
  pyStrip (String.mk (s.data.filter (fun c => c ≠ '*')))

/-- `parse_version(s)` (mdparser.py lines 186-195). -/
def parse_version (s : String) : Except String Nat :=
  if s = "1" then throw "v1 apis not supported"
  else if s = "2" then pure 2
  else if s = "3" then pure 3
  else throw "unknown api version"

/-- `parse_param_type(s)` (mdparser.py lines 199-225): the bracketed type
token, mapped through the fixed table; unknown tokens raise. -/
def parse_param_type (s : String) : Except String String :=
  if s.length < 2 ∨ s.data.head? ≠ some '[' ∨ s.data.getLast? ≠ some ']' then
    throw "expected type to be [type]"
  else
    let tstr := String.mk (s.data.drop 1).dropLast
    if tstr = "integer or \"all\"" then pure "any"
    else if tstr = "boolean" then pure "bool"
    else if tstr = "date" ∨ tstr = "date dd/mm/yyyy" then pure "date"
    else if tstr = "timestamp yyyy-MM-dd HH:mm:ss.SSS" then pure "datetime"
    else if tstr = "decimal" then pure "float"
    else if tstr = "number" ∨ tstr = "num" ∨ tstr = "integer" then pure "int"
    else if tstr = "array" then pure "list"
    else if tstr = "string" then pure "str"
    else if tstr = "time" then pure "time"
    else throw "unknown type"

/-- `parse_param_line(s, presence)` (mdparser.py lines 228-252): a
conditional line is all doc; otherwise the line must open with a backtick,
is split on the marker `` ` - `` into definition and description, the
definition (backticks removed) is split at its first space into the name
and an optional bracketed type resolved by `parse_param_type`.  An empty
line under required/optional would raise `IndexError` at `s[0]` in Python;
the model returns that as an error. -/
def parse_param_line (s : String) (presence : String) : Except String Parameter :=
  if presence = "conditional" then pure ⟨"", "", s, "conditional"⟩
  else if presence ≠ "required" ∧ presence ≠ "optional" then
    throw "unknown presence val"
  else
    match s.data with
    | [] => throw "IndexError: string index out of range"
    | c :: rest =>
      if c ≠ Char.ofNat 96 then throw "expeced param line to start with backtick"
      else
        let (defin, doc) :=
          match splitAtSub rest (Char.ofNat 96 :: " - ".data) with
          | some (d, descr) => (d, String.mk descr)
          | none => (rest, "")
        let cleaned := defin.filter (fun ch => ch ≠ Char.ofNat 96)
        match splitAtSub cleaned [' '] with
        | some (namecs, typecs) =>
          (parse_param_type (pyStrip (String.mk typecs))).map (fun t =>
            ⟨String.mk namecs, t, doc, presence⟩)
        | none => pure ⟨String.mk cleaned, "", doc, presence⟩

/-- The index of the last newline in a character list, if any. -/
def lastNl : List Char → Option Nat
  | [] => none
  | c :: rest =>
    match lastNl rest with
    | some j => some (j + 1)
    | none => if c = '\n' then some 0 else none

/-- `re.split(r"\n\s*\n", s)` (the `empty_line_re` of mdparser.py line 10):
scanning left to right, a match is a newline, a greedy run of whitespace and
a final newline (so a match extends from a newline through the last newline
of the maximal whitespace run that follows it).  Each step consumes at least
one character, so fuel `s.length + 1` is never exhausted. -/
def splitEmptyLine : Nat → List Char → List (List Char)
  | 0, s => [s]
  | fuel + 1, s =>
    match s with
    | [] => [[]]
    | c :: rest =>
      if c = '\n' then
        let w := rest.takeWhile isPySpace
        match lastNl w with
        | some j => [] :: splitEmptyLine fuel (rest.drop (j + 1))
        | none =>
          match splitEmptyLine fuel rest with
          | [] => [[c]]
          | p :: ps => (c :: p) :: ps
      else
        match splitEmptyLine fuel rest with
        | [] => [[c]]
        | p :: ps => (c :: p) :: ps

/-- The body of the presence-marker branch of `parse_params` (mdparser.py
line 265): `line.replace("*", "").replace(":", "").lower()`. -/
def presenceOf (line : String) : String :=
  toLowerStr (String.mk (line.data.filter (fun c => c ≠ '*' ∧ c ≠ ':')))

/-- The loop of `parse_params` (mdparser.py lines 262-279) over the stripped
blocks, threading the current presence category. -/
def params_loop : List String → Option String → Except String (List Parameter)
  | [], _ => pure []
  | line :: rest, presence =>
    if prefEq "**".data line.data then
      let p := presenceOf line
      if p = "required" ∨ p = "optional" ∨ p = "conditional" then
        params_loop rest (some p)
      else throw "unknown presence"
    else
      match presence with
      | none => throw "unknown presence for line"
      | some pres =>
        if toLowerStr line = "none" then params_loop rest presence
        else do
          let param ← parse_param_line line pres
          let tail ← params_loop rest presence
          pure (param :: tail)

/-- `parse_params(s)` (mdparser.py lines 255-281): split the section on
blank-line boundaries, strip each block, and run the presence-threading
loop. -/
def parse_params (s : String) : Except String (List Parameter) :=
  let spl := splitEmptyLine (s.data.length + 1) s.data
  params_loop (spl.map (fun l => pyStrip (String.mk l))) none

/-- `parse_json_response(s)` (mdparser.py lines 325-335) on the raw text:
decode with `json.loads`; a decoded dict is inferred by
`res_from_json_obj`; any other decoded shape, a decode failure or an
escaping `ParseError`/`ValueError` is re-raised as the single message
`"could not parse json response"`. -/
def parse_json_response (s : String) : Except String Response :=
  match json_loads s with
  | some v => parse_json_response_decoded v
  | none => throw "could not parse json response"

/-- The fence openers and closer of mdparser.py lines 339-345/362-368. -/
def jsFence : List Char := (Char.ofNat 96) :: (Char.ofNat 96) :: (Char.ofNat 96) :: "javascript\n".data

/-- The `json`-tagged fence opener. -/
def jsonFence : List Char := (Char.ofNat 96) :: (Char.ofNat 96) :: (Char.ofNat 96) :: "json\n".data

/-- The fence terminator. -/
def fenceEnd : List Char := [Char.ofNat 96, Char.ofNat 96, Char.ofNat 96]

/-- `parse_success_response(s)` (mdparser.py lines 338-352): one fenced
block, `javascript`-tagged or else `json`-tagged, terminated by the fence
closer; its text goes to `parse_json_response` and a failure there is
re-raised as `"could not parse success response"`. -/
def parse_success_response (s : String) : Except String Response :=
  match splitAtSub s.data jsFence with
  | some (_, rest) => success_block rest
  | none =>
    match splitAtSub s.data jsonFence with
    | some (_, rest) => success_block rest
    | none => throw "could not find start of js code block"
where
  success_block (rest : List Char) : Except String Response :=
    match splitAtSub rest fenceEnd with
    | none => throw "could not find end of js code block"
    | some (json_str, _) =>
      (parse_json_response (String.mk json_str)).mapError
        (fun _ => "could not parse success response")

/-- The sentinel-key repair of mdparser.py line 360: the pattern
`__invalid:`. -/
def invalidPat : List Char := "__invalid:".data

/-- The sentinel-key repair replacement `"__invalid":`. -/
def invalidRepl : List Char := "\"__invalid\":".data

/-- The loop of `parse_error_response` (mdparser.py lines 361-386): while a
`javascript`- or `json`-tagged fence opens, take the text up to the fence
closer (raising when it is missing), strip it, raise when fewer than two
characters remain, wrap it in braces when it does not open with one, parse
it (re-raising `ParseError` as `"could not parse error response"`), and
union it into the running response; the `ValueError` a failing
`union_response` raises at line 119 escapes the `except ParseError` clause
unwrapped.  Each iteration consumes at least the opening fence, so fuel
`s.length + 1` is never exhausted. -/
def error_loop : Nat → List Char → Response → Except String Response
  | 0, _, _ => throw "out of fuel"
  | fuel + 1, s, res =>
    let step : List Char → Except String Response := fun rest =>
      match splitAtSub rest fenceEnd with
      | none => throw "could not find end of js code block"
      | some (block, s2) =>
        let j := stripChars block
        if j.length < 2 then throw "stripped js code block empty"
        else
          let j2 := if j.head? ≠ some (Char.ofNat 123)
            then Char.ofNat 123 :: (j ++ [Char.ofNat 125]) else j
          match parse_json_response (String.mk j2) with
          | .error _ => throw "could not parse error response"
          | .ok r => do
            let res2 ← union_response res r
            error_loop fuel s2 res2
    match splitAtSub s jsFence with
    | some (_, rest) => step rest
    | none =>
      match splitAtSub s jsonFence with
      | some (_, rest) => step rest
      | none => pure res

/-- `parse_error_response(s)` (mdparser.py lines 355-386): apply the
sentinel-key repair to the whole section, then run the fence loop starting
from the empty response. -/
def parse_error_response (s : String) : Except String Response :=
  let cs := replaceSub (s.data.length + 1) s.data invalidPat invalidRepl
  error_loop (cs.length + 1) cs []

-- sanity checks for the parameter and response section parsers
example :
    parse_param_line "`studentId [number]` - the student's id" "required"
      = Except.ok ⟨"studentId", "int", "the student's id", "required"⟩ := rfl

example :
    parse_param_line "`studentId [number] - the student's id`" "required"
      = Except.error "expected type to be [type]" := rfl

example : parse_error_response "no code block in this text" = Except.ok [] := rfl

example :
    parse_success_response "no code block in this text"
      = Except.error "could not find start of js code block" := rfl

/-- The Python `Request` class (mdparser.py lines 135-178).  Attributes the
parser may never assign (Python leaves them unset on the object) are
modelled as `Option`, `none` meaning unset; `name`, `doc` and `scope` are
always assigned before the section loop runs. -/
structure Request where
  name : String
  doc : String
  scope : String
  version : Option Nat
  permissions : Option String
  params : Option (List Parameter)
  sample_params : Option String
  success_response : Option Response
  error_response : Option Response
deriving DecidableEq

/-- `re.split(header_re, s)` for `header_re = r"\* +\*\*"` (mdparser.py
line 9): scanning left to right, a match is a `*`, a maximal run of one or
more spaces, then `**`.  Each step consumes at least one character, so fuel
`s.length + 1` is never exhausted. -/
def splitHeaderRe : Nat → List Char → List (List Char)
  | 0, s => [s]
  | fuel + 1, s =>
    match s with
    | [] => [[]]
    | c :: rest =>
      let sp := rest.takeWhile (fun ch => ch = ' ')
      if c = '*' ∧ sp.length ≥ 1 ∧ prefEq "**".data (rest.drop sp.length) then
        [] :: splitHeaderRe fuel (rest.drop (sp.length + 2))
      else
        match splitHeaderRe fuel rest with
        | [] => [[c]]
        | p :: ps => (c :: p) :: ps

/-- The section dispatch loop of `parse_request` (mdparser.py lines
406-444): each piece is split at the first `:**` into a header and a body,
and the lower-cased header selects the sub-parser; unknown headers raise. -/
def sections_loop : List (List Char) → Request → Except String Request
  | [], req => pure req
  | spl :: rest, req =>
    match splitAtSub spl ":**".data with
    | none => throw "text is malformed at header split"
    | some (header, body) =>
      let h := toLowerStr (String.mk header)
      let bodyS := pyStrip (String.mk body)
      if h = "version history" then sections_loop rest req
      else if h = "version" then do
        let v ← parse_version bodyS
        sections_loop rest { req with version := some v }
      else if h = "permission" then
        sections_loop rest { req with permissions := some bodyS }
      else if h = "method" then sections_loop rest req
      else if h = "params" ∨ h = "parameters" then do
        let ps ← parse_params bodyS
        sections_loop rest { req with params := some ps }
      else if h = "success response" then do
        let r ← parse_success_response bodyS
        sections_loop rest { req with success_response := some r }
      else if h = "error response" then do
        let r ← parse_error_response bodyS
        sections_loop rest { req with error_response := some r }
      else if h = "sample parameters" then
        sections_loop rest { req with sample_params := some bodyS }
      else if h = "sample get" then sections_loop rest req
      else if h = "sample post" then sections_loop rest req
      else throw "unknown header"

/-- `parse_request(text, api_scope)` (mdparser.py lines 389-446): split the
document at the first `----` into title and body (raising when absent), the
title becomes `req.name` via `parse_request_name`, the body is split on the
header marker, the text before the first header becomes `req.doc` unless it
still contains `**:` (raising `"seems as if req has no documentation"`),
and the remaining pieces run through the section dispatch. -/
def parse_request (text : String) (api_scope : String) : Except String Request :=
  match splitAtSub text.data "----".data with
  | none => throw "could not find title line"
  | some (title, body) =>
    let nm := parse_request_name (String.mk title)
    match splitHeaderRe (body.length + 1) body with
    | [] => throw "text is malformed at header split"
    | d :: sections =>
      let desc := pyStrip (String.mk d)
      if containsSub desc.data "**:".data then
        throw "seems as if req has no documentation"
      else
        sections_loop sections
          ⟨nm, desc, api_scope, none, none, none, none, none, none⟩

-- sanity checks for the orchestrator and the error-response pipeline
example :
    parse_request "getstudentdetails----\nThis api gets the student details" "students"
      = Except.ok ⟨"getstudentdetails", "This api gets the student details",
          "students", none, none, none, none, none, none⟩ := rfl

example :
    parse_request "getStudentDetails----\nGets the details\n\n* **Version:** 3\n\n* **Method:** GET" "students"
      = Except.ok ⟨"getStudentDetails", "Gets the details",
          "students", some 3, none, none, none, none, none⟩ := rfl

example :
    parse_error_response
      ((Char.ofNat 96) :: (Char.ofNat 96) :: (Char.ofNat 96) :: "json\n\x7b__invalid:\"name\"\x7d\n".data
        ++ fenceEnd ++ "\n\n".data
        ++ jsonFence ++ "\x7b\"success\":false\x7d\n".data ++ fenceEnd |> String.mk)
      = Except.ok [("__invalid", ResponseField.mk "__invalid" FType.data none),
          ("success", ResponseField.mk "success" FType.data none)] := rfl

example :
    parse_error_response
      (jsonFence ++ "\x7b\"__invalid:\"name\"\x7d\n".data ++ fenceEnd ++ "\n\n".data
        ++ jsonFence ++ "\x7b\"success\":false\x7d\n".data ++ fenceEnd |> String.mk)
      = Except.error "could not parse error response" := rfl

/-- Every field has positive size. -/
theorem rsizeF_pos (f : ResponseField) : 1 ≤ rsizeF f := by
  cases f with
  | mk k t n =>
    cases n with
    | none => simp [rsizeF]
    | some fs =>
      simp only [rsizeF]
      omega

/-- Every response has positive size. -/
theorem rsizeL_pos (l : Response) : 1 ≤ rsizeL l := by
  cases l with
  | nil => simp [rsizeL]
  | cons p rest => cases p with
    | mk k f => simp [rsizeL]; omega

/-- The fuel of `union_merge` is irrelevant above the size of the first
argument: the walk consumes one fuel level per call while the size of its
first argument shrinks, so any two sufficient bounds give the same run. -/
theorem union_merge_stable : ∀ fuel fuel2 (a b : Response), rsizeL a < fuel →
    rsizeL a < fuel2 → union_merge fuel a b = union_merge fuel2 a b := by
  intro fuel
  induction fuel with
  | zero => intro fuel2 a b h1 _; exact absurd h1 (Nat.not_lt_zero _)
  | succ f ih =>
    intro fuel2 a b h1 h2
    cases fuel2 with
    | zero => exact absurd h2 (Nat.not_lt_zero _)
    | succ f2 =>
      cases a with
      | nil => simp [union_merge]
      | cons p rest =>
        obtain ⟨k, f0⟩ := p
        obtain ⟨key, t1, n1⟩ := f0
        have hf0 : 1 ≤ rsizeF (ResponseField.mk key t1 n1) := rsizeF_pos _
        have hrest : 1 ≤ rsizeL rest := rsizeL_pos rest
        have hsz : rsizeL ((k, ResponseField.mk key t1 n1) :: rest)
            = 1 + rsizeF (ResponseField.mk key t1 n1) + rsizeL rest := by
          simp [rsizeL]
        have htail : union_merge f rest b = union_merge f2 rest b := by
          apply ih <;> omega
        simp only [union_merge]
        cases hl : lookupField k b with
        | none => simp only [htail]
        | some g =>
          obtain ⟨key2, t2, n2⟩ := g
          by_cases ht : t1 = t2
          · subst ht
            cases t1 with
            | data => simp only [htail]
            | array =>
              cases n1 with
              | none => simp only [htail]
              | some na =>
                cases n2 with
                | none => simp only [htail]
                | some nb =>
                  have hna : union_merge f na nb = union_merge f2 na nb := by
                    have : rsizeF (ResponseField.mk key FType.array (some na))
                        = 2 + rsizeL na := by simp [rsizeF]
                    apply ih <;> omega
                  simp only [htail, hna]
            | object =>
              cases n1 with
              | none => simp only [htail]
              | some na =>
                cases n2 with
                | none => simp only [htail]
                | some nb =>
                  have hna : union_merge f na nb = union_merge f2 na nb := by
                    have : rsizeF (ResponseField.mk key FType.object (some na))
                        = 2 + rsizeL na := by simp [rsizeF]
                    apply ih <;> omega
                  simp only [htail, hna]
          · simp only [if_neg ht, htail]

/-- The per-key merge of `union_response` for a shared key (mdparser.py
lines 112-130), written against the canonical-fuel walk. -/
def merge_field : ResponseField → ResponseField → Except String ResponseField
  | .mk key t1 n1, .mk _ t2 n2 =>
    if t1 = t2 then
      match t1, n1, n2 with
      | FType.data, _, _ => pure (ResponseField.mk key t1 n1)
      | t, some na, some nb =>
        (union_fields na nb).map (fun m =>
          ResponseField.mk key t (some (m ++ fieldsOnly na nb)))
      | t, n1', _ =>
        if t = FType.array then pure (ResponseField.mk key t n1')
        else throw "ResponseField has missing nested type"
    else throw "field has conflicting types"

/-- The per-key merge against an optional partner: a key that is absent
from the second dict keeps the first dict's field unchanged. -/
def merge_opt (f1 : ResponseField) : Option ResponseField → Except String ResponseField
  | none => pure f1
  | some f2 => merge_field f1 f2

/-- The canonical walk on an empty first argument. -/
theorem union_fields_nil (b : Response) : union_fields [] b = pure [] := rfl

/-- One step of the canonical walk: merge the head entry against the lookup
in the second argument, then walk the tail. -/
theorem union_fields_cons (k : String) (f0 : ResponseField) (rest b : Response) :
    union_fields ((k, f0) :: rest) b = (do
      let f ← merge_opt f0 (lookupField k b)
      let tail ← union_fields rest b
      pure ((k, f) :: tail)) := by
  obtain ⟨key, t1, n1⟩ := f0
  have hf0 : 1 ≤ rsizeF (ResponseField.mk key t1 n1) := rsizeF_pos _
  have hrest : 1 ≤ rsizeL rest := rsizeL_pos rest
  have hsz : rsizeL ((k, ResponseField.mk key t1 n1) :: rest)
      = 1 + rsizeF (ResponseField.mk key t1 n1) + rsizeL rest := by
    simp [rsizeL]
  have htail : union_merge (rsizeL ((k, ResponseField.mk key t1 n1) :: rest)) rest b
      = union_fields rest b := by
    apply union_merge_stable <;> omega
  show union_merge (rsizeL ((k, ResponseField.mk key t1 n1) :: rest) + 1) _ b = _
  simp only [union_merge]
  cases hl : lookupField k b with
  | none => simp [htail, merge_opt]
  | some g =>
    obtain ⟨key2, t2, n2⟩ := g
    by_cases ht : t1 = t2
    · subst ht
      cases t1 with
      | data => simp [htail, merge_opt, merge_field]
      | array =>
        cases n1 with
        | none => simp [htail, merge_opt, merge_field]
        | some na =>
          cases n2 with
          | none => simp [htail, merge_opt, merge_field]
          | some nb =>
            have hna : union_merge (rsizeL ((k, ResponseField.mk key FType.array (some na)) :: rest)) na nb
                = union_fields na nb := by
              have : rsizeF (ResponseField.mk key FType.array (some na))
                  = 2 + rsizeL na := by simp [rsizeF]
              apply union_merge_stable <;> omega
            simp [htail, hna, merge_opt, merge_field, fieldsOnly]
      | object =>
        cases n1 with
        | none => simp [htail, merge_opt, merge_field]
        | some na =>
          cases n2 with
          | none => simp [htail, merge_opt, merge_field]
          | some nb =>
            have hna : union_merge (rsizeL ((k, ResponseField.mk key FType.object (some na)) :: rest)) na nb
                = union_fields na nb := by
              have : rsizeF (ResponseField.mk key FType.object (some na))
                  = 2 + rsizeL na := by simp [rsizeF]
              apply union_merge_stable <;> omega
            simp [htail, hna, merge_opt, merge_field, fieldsOnly]
    · simp [htail, merge_opt, merge_field, if_neg ht]

/-- Bind on an ok value computes. -/
theorem ok_bind {A B : Type} (a : A) (g : A → Except String B) :
    (Except.ok a >>= g) = g a := rfl

/-- Bind on an error short-circuits. -/
theorem error_bind {A B : Type} (e : String) (g : A → Except String B) :
    ((Except.error e : Except String A) >>= g) = Except.error e := rfl

/-- Inversion of a successful bind. -/
theorem except_bind_ok {A B : Type} {x : Except String A} {g : A → Except String B} {b : B}
    (h : (x >>= g) = Except.ok b) : ∃ a, x = Except.ok a ∧ g a = Except.ok b := by
  cases x with
  | ok a => exact ⟨a, rfl, h⟩
  | error e => exact absurd h (by simp [error_bind])

/-- Inversion of a successful map. -/
theorem except_map_ok {A B : Type} {x : Except String A} {g : A → B} {b : B}
    (h : x.map g = Except.ok b) : ∃ a, x = Except.ok a ∧ g a = b := by
  cases x with
  | ok a =>
    refine ⟨a, rfl, ?_⟩
    simpa [Except.map] using h
  | error e => exact absurd h (by simp [Except.map])

/-- The key lists of a well-formed response are duplicate-free. -/
theorem WFResp.nodup {fs : Response} (h : WFResp fs) : (fs.map Prod.fst).Nodup := by
  cases h with
  | mk _ h1 _ => exact h1

/-- Nested responses of a well-formed response are well-formed. -/
theorem WFResp.nested_of_mem {fs : Response} {k key : String} {t : FType} {n : Response}
    (h : WFResp fs) (hm : (k, ResponseField.mk key t (some n)) ∈ fs) : WFResp n := by
  cases h with
  | mk _ _ h2 => exact h2 _ _ _ _ hm

/-- The tail of a well-formed response is well-formed. -/
theorem WFResp.tail {p : String × ResponseField} {fs : Response}
    (h : WFResp (p :: fs)) : WFResp fs := by
  cases h with
  | mk _ h1 h2 =>
    rw [List.map_cons] at h1
    exact WFResp.mk fs h1.of_cons (fun k key t n hm => h2 k key t n (List.mem_cons_of_mem _ hm))

/-- A key outside the key list looks up to nothing. -/
theorem lookupField_eq_none {k : String} {fs : Response}
    (h : k ∉ fs.map Prod.fst) : lookupField k fs = none := by
  induction fs with
  | nil => rfl
  | cons p rest ih =>
    obtain ⟨k1, f1⟩ := p
    rw [List.map_cons, List.mem_cons] at h
    push_neg at h
    have hne : ¬ k1 = k := fun hh => h.1 hh.symm
    simp only [lookupField, if_neg hne]
    exact ih h.2

/-- A successful lookup is a member. -/
theorem lookupField_mem {k : String} {fs : Response} {f : ResponseField}
    (h : lookupField k fs = some f) : (k, f) ∈ fs := by
  induction fs with
  | nil => exact absurd h (by simp [lookupField])
  | cons p rest ih =>
    obtain ⟨k1, f1⟩ := p
    by_cases hk : k1 = k
    · subst hk
      simp only [lookupField, if_pos rfl] at h
      cases h
      exact List.mem_cons_self _ _
    · simp only [lookupField, if_neg hk] at h
      exact List.mem_cons_of_mem _ (ih h)

/-- In a well-formed cons the head key does not occur in the tail. -/
theorem WFResp.head_lookup_tail {k : String} {f : ResponseField} {fs : Response}
    (h : WFResp ((k, f) :: fs)) : lookupField k fs = none := by
  have h1 := h.nodup
  rw [List.map_cons] at h1
  exact lookupField_eq_none (List.Nodup.not_mem h1)

/-- Lookup through an append. -/
theorem lookupField_append (k : String) (xs ys : Response) :
    lookupField k (xs ++ ys)
      = match lookupField k xs with
        | some f => some f
        | none => lookupField k ys := by
  induction xs with
  | nil => simp [lookupField]
  | cons p rest ih =>
    obtain ⟨k1, f1⟩ := p
    by_cases hk : k1 = k
    · simp [lookupField, if_pos hk]
    · simp only [List.cons_append, lookupField, if_neg hk]
      exact ih

/-- Lookup into the `r2`-only remainder: a key of `r1` never survives the
filter, any other key looks up as in `r2`. -/
theorem lookupField_fieldsOnly (k : String) (a b : Response) :
    lookupField k (fieldsOnly a b)
      = if (lookupField k a).isSome then none else lookupField k b := by
  induction b with
  | nil =>
    simp only [fieldsOnly, List.filter_nil]
    cases lookupField k a <;> simp [lookupField]
  | cons p rest ih =>
    obtain ⟨k1, f1⟩ := p
    simp only [fieldsOnly, List.filter_cons] at ih ⊢
    by_cases hsurv : (lookupField k1 a).isNone
    · simp only [hsurv, if_pos]
      by_cases hk : k1 = k
      · subst hk
        simp only [lookupField, if_pos rfl]
        have : ¬(lookupField k1 a).isSome := by
          cases hx : lookupField k1 a <;> simp [hx] at hsurv ⊢
        simp [this]
      · simp only [lookupField, if_neg hk]
        exact ih
    · simp only [hsurv, if_neg, Bool.false_eq_true, not_false_eq_true]
      by_cases hk : k1 = k
      · subst hk
        have : (lookupField k1 a).isSome := by
          cases hx : lookupField k1 a <;> simp [hx] at hsurv ⊢
        rw [ih, if_pos this, if_pos this]
      · simp only [lookupField, if_neg hk]
        exact ih

/-- A successful per-key merge keeps the first field's key and type (only
its `nested` can change: mdparser.py lines 112-130 keep `r1`'s field object
and at most overwrite `nested`). -/
theorem merge_opt_type {f1 : ResponseField} {o : Option ResponseField} {g : ResponseField}
    (h : merge_opt f1 o = Except.ok g) : g.key = f1.key ∧ g.type = f1.type := by
  cases o with
  | none =>
    simp only [merge_opt] at h
    cases h
    exact ⟨rfl, rfl⟩
  | some f2 =>
    obtain ⟨key1, t1, n1⟩ := f1
    obtain ⟨key2, t2, n2⟩ := f2
    simp only [merge_opt, merge_field] at h
    by_cases ht : t1 = t2
    · subst ht
      rw [if_pos rfl] at h
      cases t1 <;> cases n1 <;> cases n2 <;>
        first
        | (cases h; exact ⟨rfl, rfl⟩)
        | (cases h)
        | (obtain ⟨m, hm, hg⟩ := except_map_ok h; subst hg; exact ⟨rfl, rfl⟩)
    · rw [if_neg ht] at h
      exact absurd h (by simp)

/-- A successful merge needs equal types on both sides (mdparser.py
line 118). -/
theorem merge_field_types {x y g : ResponseField} (h : merge_field x y = Except.ok g) :
    x.type = y.type := by
  obtain ⟨key1, t1, n1⟩ := x
  obtain ⟨key2, t2, n2⟩ := y
  by_cases ht : t1 = t2
  · simpa [ResponseField.type] using ht
  · simp only [merge_field, if_neg ht] at h
    exact absurd h (by simp)

/-- A successful walk relates the first argument to the result entrywise:
same keys in the same order, same types. -/
theorem union_fields_forall2 {a b m : Response} (h : union_fields a b = Except.ok m) :
    List.Forall₂ (fun p q : String × ResponseField =>
      p.1 = q.1 ∧ p.2.type = q.2.type) a m := by
  induction a generalizing m with
  | nil =>
    rw [union_fields_nil] at h
    cases h
    exact List.Forall₂.nil
  | cons p rest ih =>
    obtain ⟨k, f0⟩ := p
    rw [union_fields_cons] at h
    obtain ⟨g, hg, h2⟩ := except_bind_ok h
    obtain ⟨tail, htail, h3⟩ := except_bind_ok h2
    cases h3
    exact List.Forall₂.cons ⟨rfl, ((merge_opt_type hg).2).symm⟩ (ih htail)

/-- The entrywise relation transfers lookups: the result of a walk has the
same key domain as the first argument, with the same types. -/
theorem lookup_type_of_forall2 {a m : Response}
    (h : List.Forall₂ (fun p q : String × ResponseField =>
      p.1 = q.1 ∧ p.2.type = q.2.type) a m) (k : String) :
    (lookupField k m).map ResponseField.type
      = (lookupField k a).map ResponseField.type := by
  induction h with
  | nil => rfl
  | @cons p q a2 m2 hpq hrest ih =>
    obtain ⟨k1, f1⟩ := p
    obtain ⟨k2, g2⟩ := q
    obtain ⟨hk, ht⟩ := hpq
    cases hk
    by_cases hkk : k1 = k
    · simp [lookupField, if_pos hkk, ht.symm]
    · simp only [lookupField, if_neg hkk]
      exact ih

/-- The kinds of a successful `union_response`: a key of `r1` keeps `r1`'s
type, a key only in `r2` keeps `r2`'s type. -/
theorem union_response_kind {a b r : Response} (h : union_response a b = Except.ok r)
    (k : String) :
    (lookupField k r).map ResponseField.type
      = match lookupField k a with
        | some f1 => some f1.type
        | none => (lookupField k b).map ResponseField.type := by
  unfold union_response at h
  obtain ⟨m, hm, hr⟩ := except_map_ok h
  subst hr
  have hl := lookup_type_of_forall2 (union_fields_forall2 hm) k
  rw [lookupField_append]
  cases hla : lookupField k a with
  | none =>
    rw [hla] at hl
    have hmnone : lookupField k m = none := by
      cases hx : lookupField k m
      · rfl
      · rw [hx] at hl; exact absurd hl (by simp)
    rw [hmnone, lookupField_fieldsOnly, hla]
    simp
  | some f1 =>
    rw [hla] at hl
    cases hx : lookupField k m with
    | none => rw [hx] at hl; exact absurd hl (by simp)
    | some g =>
      rw [hx] at hl
      simpa using hl

/-- Two sides of a successful walk agree on the type of every shared key
(the check of mdparser.py line 118). -/
theorem union_fields_types_agree {a b m : Response} (h : union_fields a b = Except.ok m)
    {k : String} {f1 f2 : ResponseField}
    (h1 : lookupField k a = some f1) (h2 : lookupField k b = some f2) :
    f1.type = f2.type := by
  induction a generalizing m with
  | nil => exact absurd h1 (by simp [lookupField])
  | cons p rest ih =>
    obtain ⟨k0, g0⟩ := p
    rw [union_fields_cons] at h
    obtain ⟨g, hg, h3⟩ := except_bind_ok h
    obtain ⟨tail, htail, _⟩ := except_bind_ok h3
    by_cases hk : k0 = k
    · subst hk
      simp only [lookupField, if_pos rfl] at h1
      cases h1
      rw [h2] at hg
      exact merge_field_types hg
    · simp only [lookupField, if_neg hk] at h1
      exact ih htail h1

/-- Shrinking the second argument of a successful walk (dropping some of
its keys) keeps the walk successful. -/
theorem union_fields_weaken {a b b2 m : Response} (h : union_fields a b = Except.ok m)
    (hsub : ∀ k f, lookupField k b2 = some f → lookupField k b = some f) :
    ∃ m2, union_fields a b2 = Except.ok m2 := by
  induction a generalizing m with
  | nil => exact ⟨[], union_fields_nil b2⟩
  | cons p rest ih =>
    obtain ⟨k, f0⟩ := p
    rw [union_fields_cons] at h
    obtain ⟨g, hg, h3⟩ := except_bind_ok h
    obtain ⟨tail, htail, _⟩ := except_bind_ok h3
    obtain ⟨m3, hm3⟩ := ih htail
    cases hlb2 : lookupField k b2 with
    | none =>
      refine ⟨(k, f0) :: m3, ?_⟩
      rw [union_fields_cons, hlb2]
      simp [merge_opt, ok_bind, hm3]
    | some f2 =>
      rw [hsub k f2 hlb2] at hg
      refine ⟨(k, g) :: m3, ?_⟩
      rw [union_fields_cons, hlb2]
      simp only [merge_opt] at hg ⊢
      simp only [hg, ok_bind, hm3]
      rfl

/-- Every entry of the first argument of a successful walk merged
successfully against its partner in the second. -/
theorem union_fields_entry_merge {a b m : Response} (h : union_fields a b = Except.ok m)
    {k : String} {f1 : ResponseField} (h1 : lookupField k a = some f1) :
    ∃ g, merge_opt f1 (lookupField k b) = Except.ok g := by
  induction a generalizing m with
  | nil => exact absurd h1 (by simp [lookupField])
  | cons p rest ih =>
    obtain ⟨k0, f0⟩ := p
    rw [union_fields_cons] at h
    obtain ⟨g, hg, h3⟩ := except_bind_ok h
    obtain ⟨tail, htail, _⟩ := except_bind_ok h3
    by_cases hk : k0 = k
    · subst hk
      simp only [lookupField, if_pos rfl] at h1
      cases h1
      exact ⟨g, hg⟩
    · simp only [lookupField, if_neg hk] at h1
      exact ih htail h1

/-- A nested response of an entry is strictly smaller than the enclosing
response. -/
theorem rsize_nested_of_mem {k key : String} {t : FType} {n fs : Response}
    (hm : (k, ResponseField.mk key t (some n)) ∈ fs) : rsizeL n + 3 ≤ rsizeL fs := by
  induction fs with
  | nil => cases hm
  | cons p rest ih =>
    rcases List.mem_cons.mp hm with heq | hmem
    · subst heq
      have := rsizeL_pos rest
      simp only [rsizeL, rsizeF]
      omega
    · have := ih hmem
      have hp := rsizeF_pos p.2
      obtain ⟨k1, f1⟩ := p
      simp only [rsizeL]
      omega

/-- Success of the merging walk is symmetric for well-formed (dict-like)
arguments: if `union_response(a, b)` runs without raising, so does
`union_response(b, a)`. -/
theorem union_fields_symm : ∀ (N : Nat) (a b m : Response), rsizeL a + rsizeL b ≤ N →
    WFResp a → WFResp b → union_fields a b = Except.ok m →
    ∃ m2, union_fields b a = Except.ok m2 := by
  intro N
  induction N using Nat.strong_induction_on with
  | _ N ih =>
    intro a b m hsz hwa hwb h
    cases b with
    | nil => exact ⟨[], union_fields_nil a⟩
    | cons p rb =>
      obtain ⟨k, f2⟩ := p
      -- the walk of `a` against the tail `rb` still succeeds
      have hsub : ∀ k2 f, lookupField k2 rb = some f →
          lookupField k2 ((k, f2) :: rb) = some f := by
        intro k2 f hf
        have hk2 : k ≠ k2 := by
          intro hkk
          subst hkk
          rw [hwb.head_lookup_tail] at hf
          cases hf
        simp only [lookupField, if_neg hk2]
        exact hf
      obtain ⟨m1, hm1⟩ := union_fields_weaken h hsub
      -- by induction the swapped tail walk succeeds
      have hszrb : rsizeL rb + 2 ≤ rsizeL ((k, f2) :: rb) := by
        have := rsizeF_pos f2
        simp only [rsizeL]
        omega
      obtain ⟨m2, hm2⟩ := ih (rsizeL a + rsizeL rb) (by omega) a rb m1 le_rfl hwa hwb.tail hm1
      -- the head entry of `b` merges against its partner in `a`
      cases hla : lookupField k a with
      | none =>
        refine ⟨(k, f2) :: m2, ?_⟩
        rw [union_fields_cons, hla]
        simp only [merge_opt, ok_bind, hm2]
        rfl
      | some f1 =>
        have hlb : lookupField k ((k, f2) :: rb) = some f2 := by
          simp [lookupField]
        obtain ⟨g, hg⟩ := union_fields_entry_merge h hla
        rw [hlb] at hg
        simp only [merge_opt] at hg
        -- the merge succeeds in the swapped order as well
        have hmem1 : (k, f1) ∈ a := lookupField_mem hla
        obtain ⟨key1, t1, n1⟩ := f1
        obtain ⟨key2, t2, n2⟩ := f2
        have ht : t1 = t2 := by simpa [ResponseField.type] using merge_field_types hg
        subst ht
        have hsym : ∃ g2, merge_field (ResponseField.mk key2 t1 n2)
            (ResponseField.mk key1 t1 n1) = Except.ok g2 := by
          cases t1 with
          | data => exact ⟨ResponseField.mk key2 FType.data n2, by cases n1 <;> cases n2 <;> rfl⟩
          | array =>
            cases n1 with
            | none =>
              cases n2 with
              | none => exact ⟨ResponseField.mk key2 FType.array none, rfl⟩
              | some nb => exact ⟨ResponseField.mk key2 FType.array (some nb), rfl⟩
            | some na =>
              cases n2 with
              | none => exact ⟨ResponseField.mk key2 FType.array none, rfl⟩
              | some nb =>
                simp only [merge_field, if_pos rfl] at hg
                obtain ⟨mn, hmn, _⟩ := except_map_ok hg
                have hna : rsizeL na + 3 ≤ rsizeL a := rsize_nested_of_mem hmem1
                have hnb : rsizeL nb + 3 ≤ rsizeL ((k, ResponseField.mk key2 FType.array (some nb)) :: rb) := by
                  have := rsizeL_pos rb
                  simp only [rsizeL, rsizeF]
                  omega
                have hwna : WFResp na := hwa.nested_of_mem hmem1
                have hwnb : WFResp nb :=
                  hwb.nested_of_mem (List.mem_cons_self _ _)
                obtain ⟨mn2, hmn2⟩ := ih (rsizeL na + rsizeL nb) (by omega)
                  na nb mn le_rfl hwna hwnb hmn
                refine ⟨ResponseField.mk key2 FType.array (some (mn2 ++ fieldsOnly nb na)), ?_⟩
                simp only [merge_field, if_pos rfl, hmn2, Except.map]
                rfl
          | object =>
            cases n1 with
            | none =>
              exfalso
              simp [merge_field] at hg
            | some na =>
              cases n2 with
              | none =>
                exfalso
                simp [merge_field] at hg
              | some nb =>
                simp only [merge_field, if_pos rfl] at hg
                obtain ⟨mn, hmn, _⟩ := except_map_ok hg
                have hna : rsizeL na + 3 ≤ rsizeL a := rsize_nested_of_mem hmem1
                have hnb : rsizeL nb + 3 ≤ rsizeL ((k, ResponseField.mk key2 FType.object (some nb)) :: rb) := by
                  have := rsizeL_pos rb
                  simp only [rsizeL, rsizeF]
                  omega
                have hwna : WFResp na := hwa.nested_of_mem hmem1
                have hwnb : WFResp nb :=
                  hwb.nested_of_mem (List.mem_cons_self _ _)
                obtain ⟨mn2, hmn2⟩ := ih (rsizeL na + rsizeL nb) (by omega)
                  na nb mn le_rfl hwna hwnb hmn
                refine ⟨ResponseField.mk key2 FType.object (some (mn2 ++ fieldsOnly nb na)), ?_⟩
                simp only [merge_field, if_pos rfl, hmn2, Except.map]
                rfl
        obtain ⟨g2, hg2⟩ := hsym
        refine ⟨(k, g2) :: m2, ?_⟩
        rw [union_fields_cons, hla]
        simp only [merge_opt, hg2, ok_bind, hm2]
        rfl

/-- Accumulator invariant of the type-name set builder: nothing new is added
once the sole type name is already present. -/
theorem typeNameSet_go_mem : ∀ (a : List JsonValue) (acc : List String) (t0 : String),
    (∀ e ∈ a, jtypeName e = t0) → t0 ∈ acc → typeNameSet.go a acc = acc := by
  intro a
  induction a with
  | nil => intro acc t0 _ _; rfl
  | cons v rest ih =>
    intro acc t0 hall hin
    have hv : jtypeName v = t0 := hall v (by simp)
    simp only [typeNameSet.go, hv, if_pos hin]
    exact ih acc t0 (fun e he => hall e (List.mem_cons_of_mem _ he)) hin

/-- A non-empty array whose elements all have the same type name has a
singleton type-name set. -/
theorem typeNameSet_uniform {a : List JsonValue} {t0 : String} (hne : a ≠ [])
    (hall : ∀ e ∈ a, jtypeName e = t0) : typeNameSet a = [t0] := by
  cases a with
  | nil => exact absurd rfl hne
  | cons v rest =>
    have hv : jtypeName v = t0 := hall v (by simp)
    simp only [typeNameSet, typeNameSet.go, hv]
    rw [if_neg (by simp)]
    simp only [List.nil_append]
    exact typeNameSet_go_mem rest [t0] t0
      (fun e he => hall e (List.mem_cons_of_mem _ he)) (by simp)

/-- The walk preserves the key sequence of its first argument. -/
theorem map_fst_of_forall2 {a m : Response}
    (h : List.Forall₂ (fun p q : String × ResponseField =>
      p.1 = q.1 ∧ p.2.type = q.2.type) a m) : m.map Prod.fst = a.map Prod.fst := by
  induction h with
  | nil => rfl
  | @cons p q a2 m2 hpq _ ih => simp [ih, hpq.1]

/-- C1: as stated the claim is false — `parse_json_response` accepts only a
decoded dict at the top level (mdparser.py lines 328-332), so a top-level
array of objects fails rather than inferring a schema.  Amended: a decoded
value of any non-object top-level shape, arrays of objects included, fails
with the could-not-parse error; the differing-keys array
`[{"a":1},{"a":1,"b":2}]` infers a nested schema holding both keys when it
occurs as the value of a field inside a top-level object. -/
theorem claim_C1_root_shape :
    (∀ v : JsonValue, (∀ fs, v ≠ JsonValue.jobj fs) →
      parse_json_response_decoded v = Except.error "could not parse json response")
    ∧ parse_json_response_decoded (JsonValue.jobj
        [("k", JsonValue.jarr [JsonValue.jobj [("a", JsonValue.jint 1)],
          JsonValue.jobj [("a", JsonValue.jint 1), ("b", JsonValue.jint 2)]])])
      = Except.ok [("k", ResponseField.mk "k" FType.array
          (some [("a", ResponseField.mk "a" FType.data none),
                 ("b", ResponseField.mk "b" FType.data none)]))] := by
  constructor
  · intro v hv
    cases v with
    | jobj fs => exact absurd rfl (hv fs)
    | null => rfl
    | jbool b => rfl
    | jint n => rfl
    | jfloat raw => rfl
    | jstr s => rfl
    | jarr l => rfl
  · rfl

/-- C1 counterexample: the claim's own example value, a top-level JSON array
of objects with differing optional keys, is rejected by the inferencer
instead of succeeding. -/
theorem claim_C1_counterexample :
    parse_json_response_decoded (JsonValue.jarr [JsonValue.jobj [("a", JsonValue.jint 1)],
      JsonValue.jobj [("a", JsonValue.jint 1), ("b", JsonValue.jint 2)]])
      = Except.error "could not parse json response" := rfl

/-- C2: as stated the claim is false — `res_field_from_json_array` raises on
an empty array (its type-name set is empty, not a singleton, mdparser.py
lines 304-308) and on uniform `bool` (or `float`) elements (only `str` and
`int` are accepted at lines 311-312).  Amended: a non-empty array whose
elements are uniformly strings or uniformly ints yields an `Array` field
with no nested schema; an empty array fails with the too-many-types error
and a non-empty all-bool array fails with the unsupported-type error. -/
theorem claim_C2_primitive_arrays :
    (∀ (key : String) (a : List JsonValue), a ≠ [] →
      ((∀ e ∈ a, ∃ s, e = JsonValue.jstr s) ∨ (∀ e ∈ a, ∃ n, e = JsonValue.jint n)) →
      res_field_from_json_array key a = Except.ok (ResponseField.mk key FType.array none))
    ∧ (∀ key : String, res_field_from_json_array key []
        = Except.error "array has too many types")
    ∧ (∀ (key : String) (a : List JsonValue), a ≠ [] →
      (∀ e ∈ a, ∃ b, e = JsonValue.jbool b) →
      res_field_from_json_array key a = Except.error "unsupported array type") := by
  refine ⟨?_, ?_, ?_⟩
  · intro key a hne hu
    unfold res_field_from_json_array
    rw [show 2 * jsizeL a + 2 = (2 * jsizeL a + 1) + 1 from rfl]
    simp only [res_arr_core]
    rcases hu with hstr | hint
    · have hall : ∀ e ∈ a, jtypeName e = "str" := by
        intro e he
        obtain ⟨s, hs⟩ := hstr e he
        subst hs
        rfl
      rw [typeNameSet_uniform hne hall]
      simp
      rfl
    · have hall : ∀ e ∈ a, jtypeName e = "int" := by
        intro e he
        obtain ⟨n, hn⟩ := hint e he
        subst hn
        rfl
      rw [typeNameSet_uniform hne hall]
      simp
      rfl
  · intro key
    rfl
  · intro key a hne hb
    unfold res_field_from_json_array
    rw [show 2 * jsizeL a + 2 = (2 * jsizeL a + 1) + 1 from rfl]
    simp only [res_arr_core]
    have hall : ∀ e ∈ a, jtypeName e = "bool" := by
      intro e he
      obtain ⟨b, hbb⟩ := hb e he
      subst hbb
      rfl
    rw [typeNameSet_uniform hne hall]
    simp
    rfl

/-- C2 counterexample: an empty array and a uniform bool array, both of
which the claim says succeed as `Array` fields, are rejected by
`res_field_from_json_array`. -/
theorem claim_C2_counterexample :
    res_field_from_json_array "k" [] = Except.error "array has too many types"
    ∧ res_field_from_json_array "k" [JsonValue.jbool true]
      = Except.error "unsupported array type" :=
  ⟨rfl, rfl⟩

/-- C3: as stated the claim is false — for a shared `array`-kind key where
exactly one side carries a nested schema, the loop keeps the field of the
FIRST argument unchanged (`continue` at mdparser.py line 128), so the nested
schema propagates only when the first argument has it; a nested schema
carried only by the second argument is dropped.  Amended: unification
succeeds, and the resulting field is the first argument's field — with its
nested schema when the first argument has one, and with none when only the
second argument has one. -/
theorem claim_C3_one_sided_array_nested (k : String) (n : Response) :
    union_response [(k, ResponseField.mk k FType.array none)]
        [(k, ResponseField.mk k FType.array (some n))]
      = Except.ok [(k, ResponseField.mk k FType.array none)]
    ∧ union_response [(k, ResponseField.mk k FType.array (some n))]
        [(k, ResponseField.mk k FType.array none)]
      = Except.ok [(k, ResponseField.mk k FType.array (some n))] := by
  constructor
  · have h1 : union_fields [(k, ResponseField.mk k FType.array none)]
        [(k, ResponseField.mk k FType.array (some n))]
        = Except.ok [(k, ResponseField.mk k FType.array none)] := by
      rw [union_fields_cons]
      simp [lookupField, merge_opt, merge_field, union_fields_nil]
      rfl
    unfold union_response
    rw [h1]
    simp [fieldsOnly, lookupField]
    rfl
  · have h1 : union_fields [(k, ResponseField.mk k FType.array (some n))]
        [(k, ResponseField.mk k FType.array none)]
        = Except.ok [(k, ResponseField.mk k FType.array (some n))] := by
      rw [union_fields_cons]
      simp [lookupField, merge_opt, merge_field, union_fields_nil]
      rfl
    unfold union_response
    rw [h1]
    simp [fieldsOnly, lookupField]
    rfl

/-- C3 counterexample: with the nested schema only on the second side, the
unified field does not carry it (the claim says it would). -/
theorem claim_C3_counterexample :
    union_response [("k", ResponseField.mk "k" FType.array none)]
        [("k", ResponseField.mk "k" FType.array
          (some [("x", ResponseField.mk "x" FType.data none)]))]
      = Except.ok [("k", ResponseField.mk "k" FType.array none)]
    ∧ union_response [("k", ResponseField.mk "k" FType.array none)]
        [("k", ResponseField.mk "k" FType.array
          (some [("x", ResponseField.mk "x" FType.data none)]))]
      ≠ Except.ok [("k", ResponseField.mk "k" FType.array
          (some [("x", ResponseField.mk "x" FType.data none)]))] := by
  exact ⟨rfl, by decide⟩

/-- C4: as stated the claim is false — the one-sided-nested asymmetry of C3
makes `unify(a, b)` and `unify(b, a)` differ in their nested schemas even
when both succeed.  Amended (the spec's own weaker sentence): for
well-formed (dict-like) schemas unification is commutative on the kind
dimension — when `unify(a, b)` succeeds so does `unify(b, a)`, with the
same key set and the same field kind at every key. -/
theorem claim_C4_commutative_kinds (a b r : Response) (hwa : WFResp a) (hwb : WFResp b)
    (h : union_response a b = Except.ok r) :
    ∃ r2, union_response b a = Except.ok r2
      ∧ ∀ k, (lookupField k r).map ResponseField.type
          = (lookupField k r2).map ResponseField.type := by
  have hr := h
  unfold union_response at hr
  obtain ⟨m, hm, hrr⟩ := except_map_ok hr
  obtain ⟨m2, hm2⟩ := union_fields_symm (rsizeL a + rsizeL b) a b m le_rfl hwa hwb hm
  have h2 : union_response b a = Except.ok (m2 ++ fieldsOnly b a) := by
    unfold union_response
    rw [hm2]
    rfl
  refine ⟨m2 ++ fieldsOnly b a, h2, ?_⟩
  intro k
  have K1 := union_response_kind h k
  have K2 := union_response_kind h2 k
  rw [K1, K2]
  cases hla : lookupField k a with
  | none =>
    cases hlb : lookupField k b with
    | none => simp
    | some f2 => simp
  | some f1 =>
    cases hlb : lookupField k b with
    | none => simp
    | some f2 =>
      have := union_fields_types_agree hm hla hlb
      simp [this]

/-- C4 witness: the commutativity-on-kinds theorem applied to two concrete
well-formed one-field schemas. -/
theorem claim_C4_witness :
    ∃ r2, union_response [("y", ResponseField.mk "y" FType.data none)]
        [("x", ResponseField.mk "x" FType.data none)] = Except.ok r2
      ∧ ∀ k, (lookupField k [("x", ResponseField.mk "x" FType.data none),
          ("y", ResponseField.mk "y" FType.data none)]).map ResponseField.type
          = (lookupField k r2).map ResponseField.type :=
  claim_C4_commutative_kinds
    [("x", ResponseField.mk "x" FType.data none)]
    [("y", ResponseField.mk "y" FType.data none)]
    [("x", ResponseField.mk "x" FType.data none), ("y", ResponseField.mk "y" FType.data none)]
    (WFResp.mk _ (by simp) (by intro k key t n hm; simp at hm))
    (WFResp.mk _ (by simp) (by intro k key t n hm; simp at hm))
    rfl

/-- C4 counterexample: both orders succeed on a and b but give different
results (the second side's nested array schema is dropped by the first
order), so unification is not commutative as the claim states. -/
theorem claim_C4_counterexample :
    union_response [("k", ResponseField.mk "k" FType.array none)]
        [("k", ResponseField.mk "k" FType.array
          (some [("x", ResponseField.mk "x" FType.data none)]))]
      = Except.ok [("k", ResponseField.mk "k" FType.array none)]
    ∧ union_response [("k", ResponseField.mk "k" FType.array
          (some [("x", ResponseField.mk "x" FType.data none)]))]
        [("k", ResponseField.mk "k" FType.array none)]
      = Except.ok [("k", ResponseField.mk "k" FType.array
          (some [("x", ResponseField.mk "x" FType.data none)]))]
    ∧ ([("k", ResponseField.mk "k" FType.array none)] : Response)
      ≠ [("k", ResponseField.mk "k" FType.array
          (some [("x", ResponseField.mk "x" FType.data none)]))] := by
  exact ⟨rfl, rfl, by decide⟩

/-- C5: as stated the claim is false — `res.fields[k]` holds the very
`ResponseField` object of `r1.fields[k]` (line 110) and line 130 assigns
`nested` through it, so a successful `unify(a, b)` is visible through `a`.
Amended: the call builds a fresh top-level mapping and never writes through
the second argument (for tree-shaped inputs), but the first argument's
fields are merged in place: after success the post-value of `a` is exactly
the merged walk (the result restricted to `a`'s keys, which keep their
order), so mutation of the first argument is externally visible whenever
merging changes a nested schema. -/
theorem claim_C5_left_argument_mutated (a b r : Response)
    (h : union_response a b = Except.ok r) :
    ∃ m, union_mut_left a b = Except.ok m ∧ r = m ++ fieldsOnly a b
      ∧ m.map Prod.fst = a.map Prod.fst := by
  unfold union_response at h
  obtain ⟨m, hm, hrr⟩ := except_map_ok h
  exact ⟨m, hm, hrr.symm, map_fst_of_forall2 (union_fields_forall2 hm)⟩

/-- C5 witness: the mutation-shape theorem applied to two concrete
one-field object schemas. -/
theorem claim_C5_witness :
    ∃ m, union_mut_left
        [("k", ResponseField.mk "k" FType.object
          (some [("x", ResponseField.mk "x" FType.data none)]))]
        [("k", ResponseField.mk "k" FType.object
          (some [("y", ResponseField.mk "y" FType.data none)]))] = Except.ok m
      ∧ [("k", ResponseField.mk "k" FType.object
          (some [("x", ResponseField.mk "x" FType.data none),
                 ("y", ResponseField.mk "y" FType.data none)]))]
        = m ++ fieldsOnly
          [("k", ResponseField.mk "k" FType.object
            (some [("x", ResponseField.mk "x" FType.data none)]))]
          [("k", ResponseField.mk "k" FType.object
            (some [("y", ResponseField.mk "y" FType.data none)]))]
      ∧ m.map Prod.fst = [("k", ResponseField.mk "k" FType.object
          (some [("x", ResponseField.mk "x" FType.data none)]))].map Prod.fst :=
  claim_C5_left_argument_mutated
    [("k", ResponseField.mk "k" FType.object
      (some [("x", ResponseField.mk "x" FType.data none)]))]
    [("k", ResponseField.mk "k" FType.object
      (some [("y", ResponseField.mk "y" FType.data none)]))]
    [("k", ResponseField.mk "k" FType.object
      (some [("x", ResponseField.mk "x" FType.data none),
             ("y", ResponseField.mk "y" FType.data none)]))]
    rfl

/-- C5 counterexample: on two object schemas sharing key `k` the call
succeeds, and the post-value of the first argument (the fields reachable
through `r1` after line 130's in-place assignment) differs from its value
before the call — the mutation is externally visible. -/
theorem claim_C5_counterexample :
    union_response [("k", ResponseField.mk "k" FType.object
        (some [("x", ResponseField.mk "x" FType.data none)]))]
      [("k", ResponseField.mk "k" FType.object
        (some [("y", ResponseField.mk "y" FType.data none)]))]
      = Except.ok [("k", ResponseField.mk "k" FType.object
          (some [("x", ResponseField.mk "x" FType.data none),
                 ("y", ResponseField.mk "y" FType.data none)]))]
    ∧ union_mut_left [("k", ResponseField.mk "k" FType.object
        (some [("x", ResponseField.mk "x" FType.data none)]))]
      [("k", ResponseField.mk "k" FType.object
        (some [("y", ResponseField.mk "y" FType.data none)]))]
      = Except.ok [("k", ResponseField.mk "k" FType.object
          (some [("x", ResponseField.mk "x" FType.data none),
                 ("y", ResponseField.mk "y" FType.data none)]))]
    ∧ ([("k", ResponseField.mk "k" FType.object
          (some [("x", ResponseField.mk "x" FType.data none),
                 ("y", ResponseField.mk "y" FType.data none)]))] : Response)
      ≠ [("k", ResponseField.mk "k" FType.object
          (some [("x", ResponseField.mk "x" FType.data none)]))] := by
  exact ⟨rfl, rfl, by decide⟩

/-- C6: as stated the claim is false — no action/resource split exists in
the program.  `parse_request_name` (mdparser.py lines 181-183) only removes
`*` characters and strips whitespace, and `parse_request` stores the whole
title as the single attribute `name`; there is no uppercase-based split and
no `MalformedTitle` failure anywhere.  Amended: the title
`"getStudentDetails"` parses to `name = "getStudentDetails"` (whole, with
emphasis markers removed and whitespace stripped), and a title with no
uppercase letter parses just as successfully. -/
theorem claim_C6_title_kept_whole :
    parse_request "getStudentDetails----\nGets the details of a student" "students"
      = Except.ok ⟨"getStudentDetails", "Gets the details of a student",
          "students", none, none, none, none, none, none⟩
    ∧ parse_request_name " **getStudentDetails** " = "getStudentDetails" :=
  ⟨rfl, rfl⟩

/-- C6 counterexample: a document whose title has no uppercase letter past
position 0 parses successfully (the claim says it must fail with
`MalformedTitle`), and the whole lowercase title lands in `name` unsplit. -/
theorem claim_C6_counterexample :
    parse_request "getstudentdetails----\nThis api gets the student details" "students"
      = Except.ok ⟨"getstudentdetails", "This api gets the student details",
          "students", none, none, none, none, none, none⟩ := rfl

/-- C7: as stated the claim is false — read literally, the quoted line is a
single inline code span enclosing the whole text (the closing backtick at
the very end), and on that line the definition/description split marker
`` ` - `` never matches, so the backtick-stripped span is split at its first
space into the name and the pseudo-type token `[number] - the student's id`,
which `parse_param_type` rejects.  Amended: the dialect's actual shape, with
the code span closed before the ` - ` marker
(`` `studentId [number]` - the student's id ``), parses under category
required to name `studentId`, type `int`, doc `the student's id`, presence
`required`. -/
theorem claim_C7_param_line :
    parse_param_line "`studentId [number]` - the student's id" "required"
      = Except.ok ⟨"studentId", "int", "the student's id", "required"⟩ := rfl

/-- C7 counterexample: the claim's literal line — one code span enclosing
the whole text — fails with the bad-type error instead of parsing. -/
theorem claim_C7_counterexample :
    parse_param_line "`studentId [number] - the student's id`" "required"
      = Except.error "expected type to be [type]" := rfl

/-- C8: as stated the claim is false — on the literal block text
`{"__invalid:"name"}` the repair of mdparser.py line 360 rewrites the
substring `__invalid:` inside the already-present quotes, producing
`{""__invalid":"name"}`, which is not valid JSON, so the section fails.
Amended: on the vendor's actually-unquoted form `{__invalid:"name"}` the
repair produces `{"__invalid":"name"}` and the section's two blocks unify
into a single schema holding both `__invalid` and `success` as primitive
(`data`) fields. -/
theorem claim_C8_error_section_repair :
    parse_error_response "```json\n\x7b__invalid:\"name\"\x7d\n```\n\n```json\n\x7b\"success\":false\x7d\n```"
      = Except.ok [("__invalid", ResponseField.mk "__invalid" FType.data none),
          ("success", ResponseField.mk "success" FType.data none)] := rfl

/-- C8 counterexample: the claim's literal first block, which already quotes
the sentinel key, is broken by the textual repair and the section fails
instead of unifying. -/
theorem claim_C8_counterexample :
    parse_error_response "```json\n\x7b\"__invalid:\"name\"\x7d\n```\n\n```json\n\x7b\"success\":false\x7d\n```"
      = Except.error "could not parse error response" := rfl

/-- C9: confirmed — `parse_version` (mdparser.py lines 186-195) maps `"2"`
to 2 and `"3"` to 3, rejects `"1"` with the explicit unsupported message,
fails on every other string with the unknown-version message, and never
returns a value outside {2, 3}. -/
theorem claim_C9_version :
    parse_version "2" = Except.ok 2
    ∧ parse_version "3" = Except.ok 3
    ∧ parse_version "1" = Except.error "v1 apis not supported"
    ∧ (∀ s : String, s ≠ "1" → s ≠ "2" → s ≠ "3" →
        parse_version s = Except.error "unknown api version")
    ∧ (∀ (s : String) (n : Nat), parse_version s = Except.ok n → n = 2 ∨ n = 3) := by
  refine ⟨rfl, rfl, rfl, ?_, ?_⟩
  · intro s h1 h2 h3
    unfold parse_version
    rw [if_neg h1, if_neg h2, if_neg h3]
    rfl
  · intro s n h
    unfold parse_version at h
    by_cases h1 : s = "1"
    · rw [if_pos h1] at h
      exact absurd h (by simp)
    · rw [if_neg h1] at h
      by_cases h2 : s = "2"
      · rw [if_pos h2] at h
        cases h
        exact Or.inl rfl
      · rw [if_neg h2] at h
        by_cases h3 : s = "3"
        · rw [if_pos h3] at h
          cases h
          exact Or.inr rfl
        · rw [if_neg h3] at h
          exact absurd h (by simp)

/-- C10: confirmed — when the error-response section text (before and after
the sentinel-key repair) contains no `javascript`- or `json`-tagged fence,
the loop of `parse_error_response` exits on its first iteration and the
function returns the empty response without raising, whereas
`parse_success_response` on the same text fails with the no-code-block
error. -/
theorem claim_C10_error_section_silent (s : String)
    (h1 : splitAtSub (replaceSub (s.data.length + 1) s.data invalidPat invalidRepl)
      jsFence = none)
    (h2 : splitAtSub (replaceSub (s.data.length + 1) s.data invalidPat invalidRepl)
      jsonFence = none)
    (h3 : splitAtSub s.data jsFence = none)
    (h4 : splitAtSub s.data jsonFence = none) :
    parse_error_response s = Except.ok []
    ∧ parse_success_response s = Except.error "could not find start of js code block" := by
  constructor
  · unfold parse_error_response
    simp only [error_loop, h1, h2]
    rfl
  · unfold parse_success_response
    simp only [h3, h4]
    rfl

/-- C10 witness: the silent-empty-schema theorem at a concrete fence-free
section text. -/
theorem claim_C10_witness :
    parse_error_response "there is no code block here" = Except.ok []
    ∧ parse_success_response "there is no code block here"
      = Except.error "could not find start of js code block" :=
  claim_C10_error_section_silent "there is no code block here" rfl rfl rfl rfl
